import Mathlib

/-!
Shallow embedding of the ncdhhs-pdf-qa ingestion-and-retrieval pipeline.

Text is modelled as lists of characters, floating-point scores and
embedding coordinates as rationals, and each remote model call as an
oracle parameter of type Except (an error value models a raised
exception).  Every definition is translated from the Python source file
named in its doc comment.
-/

/-- Python str.isspace for the characters relevant here (the whitespace
characters Python str.split and str.strip treat as separators). -/
def isPyWs (c : Char) : Bool :=
  c = ' ' ∨ c = '\t' ∨ c = '\n' ∨ c = '\r' ∨ c = '\x0b' ∨ c = '\x0c'

/-- Python str.strip: remove leading and trailing whitespace. -/
def pyStrip (l : List Char) : List Char :=
  ((l.dropWhile isPyWs).reverse.dropWhile isPyWs).reverse

/-- Helper for pythonSplitWs: walk the text keeping the characters of the
token currently being read (in reverse) in cur. -/
def pySplitAux : List Char → List Char → List (List Char)
  | [], cur => if cur.isEmpty then [] else [cur.reverse]
  | c :: cs, cur =>
    if isPyWs c then
      if cur.isEmpty then pySplitAux cs [] else cur.reverse :: pySplitAux cs []
    else pySplitAux cs (c :: cur)

/-- Python str.split with no argument: split on runs of whitespace,
dropping empty tokens. -/
def pythonSplitWs (l : List Char) : List (List Char) :=
  pySplitAux l []

/-- Python " ".join on a list of token strings. -/
def joinSp : List (List Char) → List Char
  | [] => []
  | [t] => t
  | t :: ts => t ++ ' ' :: joinSp ts

/-- Python str.rfind(ch, s, e): the highest index i with s ≤ i < e (e
clamped to the length) such that the character at i equals ch, or -1 if
there is none.  From the sentence-boundary search in chunk_text
(src/backend/main_with_opensearch.py). -/
def rfindC (t : List Char) (ch : Char) (s e : Nat) : Int :=
  match ((List.range (min e t.length)).filter
      (fun i => decide (s ≤ i) && (t.getD i ' ' == ch))).getLast? with
  | some i => (i : Int)
  | none => -1

/-- The end position one iteration of chunk_text uses for the slice
text[start:end]: start + chunk_size, moved back to just after the last
sentence terminator in the window when that terminator lies within the
trailing 200 characters of the naive cut
(src/backend/main_with_opensearch.py, lines 434-446). -/
def chunkEnd (t : List Char) (chunk_size : Nat) (start : Nat) : Int :=
  let e0 := start + chunk_size
  if e0 < t.length then
    let last_period := rfindC t '.' start e0
    let last_exclamation := rfindC t '!' start e0
    let last_question := rfindC t '?' start e0
    let sentence_end := max (max last_period last_exclamation) last_question
    if sentence_end > (start : Int) + (chunk_size : Int) - 200 then
      sentence_end + 1
    else (e0 : Int)
  else (e0 : Int)

/-- One run of the while-loop of chunk_text
(src/backend/main_with_opensearch.py, lines 425-457), with explicit
fuel; none models non-termination of the Python loop.  The loop
variable start is kept as a natural number: for the parameter regimes
considered here (overlap + 200 ≤ chunk_size) the Python start never
becomes negative, so the clamp in Int.toNat is never exercised. -/
def chunkLoop (t : List Char) (chunk_size overlap : Nat) :
    Nat → Nat → List (List Char) → Option (List (List Char))
  | 0, _, _ => none
  | fuel + 1, start, acc =>
    if start < t.length then
      let e : Int := chunkEnd t chunk_size start
      let chunk := pyStrip ((t.drop start).take (e - (start : Int)).toNat)
      let acc' := if chunk.isEmpty then acc else acc ++ [chunk]
      if e - (overlap : Int) ≥ (t.length : Int) then some acc'
      else chunkLoop t chunk_size overlap fuel (e - (overlap : Int)).toNat acc'
    else some acc

/-- chunk_text(text, chunk_size, overlap) from
src/backend/main_with_opensearch.py, lines 425-457: character-level
chunking with a sentence-boundary-aware cut.  The result is an Option:
none would mean the Python while-loop ran longer than the fuel bound
length + 1, which the termination theorem below rules out for the
claimed parameter regime. -/
def chunk_text (t : List Char) (chunk_size overlap : Nat) :
    Option (List (List Char)) :=
  if t.length ≤ chunk_size then some [t]
  else chunkLoop t chunk_size overlap (t.length + 1) 0 []

/-- The word slices words[i : i + size] taken by create_text_chunks,
for k successive values of i starting at start and stepping by step.
Python range(0, len(words), step) yields exactly
ceil(len(words) / step) indices, which is the k passed below. -/
def wordChunksK (ws : List α) (size step : Nat) : Nat → Nat → List (List α)
  | 0, _ => []
  | k + 1, start => ((ws.drop start).take size) :: wordChunksK ws size step k (start + step)

/-- Token-level view of create_text_chunks
(src/backend/enhanced_main.py, lines 216-226): the list of word slices
words[i : i + chunk_size] for i in range(0, len(words), chunk_size - overlap).
When chunk_size ≤ overlap the Python range call raises ValueError (zero
or negative step); that degenerate case, outside every caller of the
source (which uses 1000 and 100), is modelled as the empty list. -/
def create_text_chunks_words (ws : List α) (chunk_size overlap : Nat) : List (List α) :=
  if chunk_size - overlap = 0 then []
  else
    wordChunksK ws chunk_size (chunk_size - overlap)
      ((ws.length + (chunk_size - overlap) - 1) / (chunk_size - overlap)) 0

/-- create_text_chunks(text, chunk_size, overlap) from
src/backend/enhanced_main.py, lines 216-226: split the text into
whitespace tokens, join each word slice with single spaces, and keep
only chunks whose strip is non-empty. -/
def create_text_chunks (text : List Char) (chunk_size overlap : Nat) : List (List Char) :=
  ((create_text_chunks_words (pythonSplitWs text) chunk_size overlap).map joinSp).filter
    (fun c => !(pyStrip c).isEmpty)

/-- Two consecutive chunks share exactly ov tokens: both are at least
ov tokens long, and the trailing ov tokens of the first equal the
leading ov tokens of the second. -/
def sharesExactly (c1 c2 : List α) (ov : Nat) : Prop :=
  ov ≤ c1.length ∧ ov ≤ c2.length ∧ c1.drop (c1.length - ov) = c2.take ov

instance (c1 c2 : List α) (ov : Nat) [DecidableEq α] :
    Decidable (sharesExactly c1 c2 ov) := by
  unfold sharesExactly
  infer_instance

/-- Python str.strip on a String. -/
def pyStripS (s : String) : String := String.mk (pyStrip s.data)

/-- Whether sub occurs as a contiguous run inside hay. -/
def isSubListOf [DecidableEq α] (sub : List α) : List α → Bool
  | [] => sub.isEmpty
  | a :: t => sub.isPrefixOf (a :: t) || isSubListOf sub t

/-- Python substring test: sub in hay. -/
def strContainsSub (hay sub : String) : Bool := isSubListOf sub.data hay.data

/-- Python slicing s[:n] on a String. -/
def strTake (s : String) (n : Nat) : String := String.mk (s.data.take n)

/-- Python str.lower (ASCII, which covers the texts involved). -/
def strLower (s : String) : String := String.mk (s.data.map Char.toLower)

/-- The relevance threshold 0.5 of query_knowledge_base
(src/backend/main.py, lines 349 and 407), as an explicit rational. -/
def relevanceThreshold : ℚ := ⟨1, 2, by decide, by decide⟩

/-- The hard-coded mock similarity score 0.8 of the second
find_relevant_documents (src/backend/main_container.py, line 495). -/
def mockSimilarity : ℚ := ⟨4, 5, by decide, by decide⟩

/-- The deterministic heuristic responder at the end of query_bedrock
(src/backend/main_container.py, lines 334-343): used when every remote
generation tier has failed or produced an empty answer. -/
def simple_fallback (question context : String) : String :=
  let question_lower := strLower question
  if strContainsSub question_lower "what" &&
      (strContainsSub question_lower "document" || strContainsSub question_lower "content") then
    "The document contains: " ++ strTake context 200 ++
      (if context.data.length > 200 then "..." else "")
  else if strContainsSub question_lower "how many" then
    "The document contains approximately " ++
      toString (pythonSplitWs context.data).length ++ " words."
  else
    "Based on the available content: " ++ strTake context 150 ++
      (if context.data.length > 150 then "..." else "")

/-- query_bedrock(question, context) from src/backend/main_container.py,
lines 281-343.  The two remote calls (Titan Text Express, then Claude
Instant with an adapted request body) are oracles returning the parsed
answer text or an error for a raised exception.  Per the source, the
secondary model is tried only when the primary raised; a primary call
that succeeds with an empty answer falls directly through to the
heuristic responder. -/
def query_bedrock (titan claude : Except String String)
    (question context : String) : String :=
  match titan with
  | Except.ok raw =>
    let answer := pyStripS raw
    if answer = "" then simple_fallback question context else answer
  | Except.error _ =>
    match claude with
    | Except.ok raw =>
      let answer := pyStripS raw
      if answer = "" then simple_fallback question context else answer
    | Except.error _ => simple_fallback question context

/-- create_embedding(text) from src/backend/main_with_opensearch.py,
lines 459-489.  The remote Titan embedding call is an oracle; an error
models any raised exception, and an empty list models a missing or
empty embedding field in the response (the source raises ValueError on
it, caught by the same handler).  Both paths return the zero vector of
length 1024. -/
def create_embedding (embed : String → Except String (List ℚ)) (text : String) : List ℚ :=
  let t := if text.data.length > 8000 then strTake text 8000 else text
  match embed t with
  | Except.ok emb => if emb.isEmpty then List.replicate 1024 0 else emb
  | Except.error _ => List.replicate 1024 0

/-- One retrieval hit returned by the knowledge-base retrieve call in
query_knowledge_base (src/backend/main.py). -/
structure RetrievalResult where
  score : ℚ
  uri : String
  text : String
deriving DecidableEq

/-- One entry of the sources list built by query_knowledge_base. -/
structure SourceInfo where
  uri : String
  score : ℚ
  excerpt : String
deriving DecidableEq

/-- The value returned by query_knowledge_base, extended with a flag
recording whether the generation model was invoked on this question. -/
structure QKBResult where
  answer : String
  sources : List SourceInfo
  confidence : ℚ
  invokedModel : Bool
deriving DecidableEq

/-- The canned answer of query_knowledge_base when retrieval returns no
results (src/backend/main.py, line 339). -/
def noResultsMsg : String :=
  "I couldn\x27t find any relevant information in the NCDHHS documents to answer your question."

/-- The canned answer of query_knowledge_base when the top retrieval
score is below the relevance threshold (src/backend/main.py, line 351). -/
def lowRelevanceMsg (question : String) : String :=
  "I couldn\x27t find relevant information in the NCDHHS documents to answer your question about \x27" ++
    question ++
    "\x27. The available documents appear to contain information about software licensing and legal agreements, which may not be related to your query."

/-- The context block of the generation prompt in query_knowledge_base
(src/backend/main.py, lines 358-362). -/
def buildContext (results : List RetrievalResult) : String :=
  String.intercalate "\n\n"
    (results.map (fun r => "Source: " ++ r.uri ++ "\nContent: " ++ r.text))

/-- The generation prompt of query_knowledge_base
(src/backend/main.py, lines 365-380), with the instruction text kept
abstract in the constant and the context and question interpolated as
in the source. -/
def buildPrompt (question : String) (results : List RetrievalResult) : String :=
  "You are an AI assistant that answers questions based on NCDHHS (North Carolina Department of Health and Human Services) documents.\n\nContext from NCDHHS documents:\n" ++
    buildContext results ++ "\n\nQuestion: " ++ question ++ "\n\nAnswer:"

/-- The sources list built on the generation path of
query_knowledge_base (src/backend/main.py, lines 404-413): only results
scoring at least the 0.5 threshold, each with a 300-character excerpt. -/
def buildSources (results : List RetrievalResult) : List SourceInfo :=
  (results.filter (fun r => relevanceThreshold ≤ r.score)).map
    (fun r =>
      { uri := r.uri, score := r.score,
        excerpt := if r.text.data.length > 300 then strTake r.text 300 ++ "..." else r.text })

/-- query_knowledge_base(question, max_results) from
src/backend/main.py, lines 319-434, after the retrieve call: the
retrieval results are an input, and gen is the generation-model oracle
(an error models a raised exception, answered by the outer handler).
The invokedModel flag records whether gen was consulted. -/
def query_knowledge_base (gen : String → Except String String)
    (question : String) (results : List RetrievalResult) : QKBResult :=
  if results.isEmpty then
    { answer := noResultsMsg, sources := [], confidence := 0, invokedModel := false }
  else
    let top_score := ((results.head?).map RetrievalResult.score).getD 0
    if top_score < relevanceThreshold then
      { answer := lowRelevanceMsg question, sources := [], confidence := 0,
        invokedModel := false }
    else
      match gen (buildPrompt question results) with
      | Except.ok answer =>
        { answer := answer, sources := buildSources results, confidence := top_score,
          invokedModel := true }
      | Except.error e =>
        { answer := "I encountered an error while processing your question: " ++ e,
          sources := [], confidence := 0, invokedModel := true }

/-- A document record of document_store in src/backend/main_container.py,
restricted to the fields read by the second find_relevant_documents. -/
structure ContainerDoc where
  success : Bool
  content : String
deriving DecidableEq

/-- The second definition of find_relevant_documents in
src/backend/main_container.py, lines 482-502 — the one the module-level
name resolves to when the /ask-question endpoint (line 515) calls it,
since it is defined after the cosine-similarity version of lines
345-372 and therefore shadows it.  It ignores the question and all
stored embeddings and pairs every successfully processed document that
has content with the hard-coded similarity 0.8, truncated to top_k. -/
def find_relevant_documents (question : String)
    (document_store : List ContainerDoc) (top_k : Nat) : List (ContainerDoc × ℚ) :=
  ((document_store.filter (fun d => d.success && !d.content.isEmpty)).map
    (fun d => (d, mockSimilarity))).take top_k

/-- Job status strings of ProcessingJob in src/backend/enhanced_main.py. -/
inductive JobStatus
  | queued
  | processing
  | completed
  | completed_with_errors
  | failed
  | cancelled
deriving DecidableEq

/-- The mutable fields of ProcessingJob (src/backend/enhanced_main.py,
lines 62-73) that the lifecycle claims are about. -/
structure JobState where
  total_pdfs : Nat
  processed : Nat
  failed : Nat
  status : JobStatus
deriving DecidableEq

/-- A freshly created job (ProcessingJob.__init__): counters zero,
status queued. -/
def initJob (n : Nat) : JobState :=
  { total_pdfs := n, processed := 0, failed := 0, status := JobStatus.queued }

/-- A status is terminal in the sense of the specification. -/
def isTerminalStatus (st : JobStatus) : Bool :=
  st = JobStatus.completed ∨ st = JobStatus.completed_with_errors ∨
    st = JobStatus.failed ∨ st = JobStatus.cancelled

/-- The atomic transitions of a job under process_pdfs_background
(src/backend/enhanced_main.py, lines 248-306) and the cancel endpoint
(lines 431-442).  Each task completion increments exactly one counter;
tasks keep completing after a cancel because the source never checks
job.status inside process_with_semaphore; the final status write after
asyncio.gather requires every task to have completed and overwrites a
cancelled status as well.  cancel is allowed exactly when the status is
not completed and not failed, matching the source check. -/
inductive JobStep : JobState → JobState → Prop
  | start (s : JobState) :
      s.status = JobStatus.queued →
      JobStep s { s with status := JobStatus.processing }
  | taskSuccess (s : JobState) :
      s.status = JobStatus.processing ∨ s.status = JobStatus.cancelled →
      s.processed + s.failed < s.total_pdfs →
      JobStep s { s with processed := s.processed + 1 }
  | taskFailure (s : JobState) :
      s.status = JobStatus.processing ∨ s.status = JobStatus.cancelled →
      s.processed + s.failed < s.total_pdfs →
      JobStep s { s with failed := s.failed + 1 }
  | finish (s : JobState) :
      s.status = JobStatus.processing ∨ s.status = JobStatus.cancelled →
      s.processed + s.failed = s.total_pdfs →
      JobStep s
        { s with status :=
            if s.failed = 0 then JobStatus.completed else JobStatus.completed_with_errors }
  | cancel (s : JobState) :
      s.status ≠ JobStatus.completed →
      s.status ≠ JobStatus.failed →
      JobStep s { s with status := JobStatus.cancelled }

/-- The states a job created for n PDFs can reach. -/
def JobReachable (n : Nat) (s : JobState) : Prop :=
  Relation.ReflTransGen JobStep (initJob n) s

/-- cancel_job(job_id) from src/backend/enhanced_main.py, lines 431-442,
on a job that exists: reject (HTTP 400) exactly when the status is
completed or failed, otherwise set the status to cancelled and report
success. -/
def cancel_job (job : JobState) : Except String JobState :=
  if job.status = JobStatus.completed ∨ job.status = JobStatus.failed then
    Except.error "Cannot cancel completed job"
  else
    Except.ok { job with status := JobStatus.cancelled }

/-- ProgressiveProcessor.send_progress
(src/backend/progressive_processor.py, lines 17-23) under CPython
iteration semantics: the for statement keeps an index cursor into the
live list; a failed send calls disconnect, which removes the connection
from the list the loop is iterating over, so the element that slid into
the current position is skipped.  ok is the delivery oracle; the result
pairs the final connection list with the connections that received the
message, and none would mean the loop ran longer than the fuel bound,
which cannot happen since the cursor grows at every step. -/
def sendProgressAux [DecidableEq α] (ok : α → Bool) :
    Nat → Nat → List α → List α → Option (List α × List α)
  | 0, _, _, _ => none
  | fuel + 1, cursor, lst, delivered =>
    if h : cursor < lst.length then
      let c := lst.get ⟨cursor, h⟩
      if ok c then sendProgressAux ok fuel (cursor + 1) lst (delivered ++ [c])
      else sendProgressAux ok fuel (cursor + 1) (lst.erase c) delivered
    else some (lst, delivered)

/-- Entry point of the send_progress model: cursor 0, nothing delivered,
fuel one more than the number of connections. -/
def send_progress [DecidableEq α] (ok : α → Bool) (conns : List α) :
    Option (List α × List α) :=
  sendProgressAux ok (conns.length + 1) 0 conns []

/-- C4 counterexample: on the three-character input consisting of a
space, the letter a, and a space — whose length is at most the chunk
size — chunk_text returns the input unchanged, not the whitespace-
stripped input claimed by the specification. -/
theorem chunk_text_untrimmed_cex :
    chunk_text " a ".data 1000 200 ≠ some [pyStrip " a ".data] := by
  decide

/-- C4 (amended): for every text no longer than the chunk size,
chunk_text returns exactly one chunk, and that chunk is the input text
unchanged. -/
theorem chunk_text_short_single_chunk (t : List Char) (chunk_size overlap : Nat)
    (h : t.length ≤ chunk_size) :
    chunk_text t chunk_size overlap = some [t] := by
  unfold chunk_text
  rw [if_pos h]

/-- Witness for the amended C4 theorem at a concrete short input. -/
theorem chunk_text_short_single_chunk_witness :
    chunk_text "  hi there ".data 1000 200 = some ["  hi there ".data] :=
  chunk_text_short_single_chunk "  hi there ".data 1000 200 (by decide)

/-- C8 counterexample: a job in the terminal status
completed_with_errors is not rejected — cancel_job succeeds and moves
it to cancelled, contradicting the claim that every terminal status
rejects a cancel and leaves the job unchanged. -/
theorem cancel_job_terminal_accepted_cex :
    isTerminalStatus JobStatus.completed_with_errors = true ∧
      cancel_job
          { total_pdfs := 5, processed := 3, failed := 2,
            status := JobStatus.completed_with_errors } =
        Except.ok
          { total_pdfs := 5, processed := 3, failed := 2,
            status := JobStatus.cancelled } := by
  constructor
  · decide
  · rfl

/-- C8 (amended): cancel_job rejects with an error, leaving the job
unchanged, exactly when the status is completed or failed; for every
other status — queued, processing, and also the terminal statuses
completed_with_errors and cancelled — it succeeds and sets the status
to cancelled without touching the counters. -/
theorem cancel_job_spec (job : JobState) :
    (job.status ≠ JobStatus.completed → job.status ≠ JobStatus.failed →
      cancel_job job = Except.ok { job with status := JobStatus.cancelled }) ∧
    (job.status = JobStatus.completed ∨ job.status = JobStatus.failed →
      cancel_job job = Except.error "Cannot cancel completed job") := by
  constructor
  · intro h1 h2
    unfold cancel_job
    rw [if_neg]
    rintro (h | h) <;> [exact h1 h; exact h2 h]
  · intro h
    unfold cancel_job
    rw [if_pos h]

/-- Witness for the amended C8 theorem: a processing job is cancelled. -/
theorem cancel_job_spec_witness :
    cancel_job { total_pdfs := 4, processed := 1, failed := 0, status := JobStatus.processing } =
      Except.ok { total_pdfs := 4, processed := 1, failed := 0, status := JobStatus.cancelled } :=
  (cancel_job_spec
    { total_pdfs := 4, processed := 1, failed := 0, status := JobStatus.processing }).1
    (by decide) (by decide)

/-- C7: evaluating the find_relevant_documents actually bound when the
/ask-question endpoint runs (the second, shadowing definition of
src/backend/main_container.py): for a store holding one successful
document, it reports similarity 0.8 for that document no matter what
the question is, computing no cosine similarity against any stored
embedding. -/
theorem find_relevant_documents_mock_eval :
    find_relevant_documents "How often are foster care placements reviewed?"
        [{ success := true, content := "software licensing terms" }] 5 =
      [({ success := true, content := "software licensing terms" }, mockSimilarity)] ∧
    find_relevant_documents "an entirely different question"
        [{ success := true, content := "software licensing terms" }] 5 =
      [({ success := true, content := "software licensing terms" }, mockSimilarity)] := by
  constructor
  · decide
  · decide

/-- C9: evaluating the send_progress model of
ProgressiveProcessor.send_progress at two subscribed listeners where
delivery to the first raises: the first is removed, but the second —
whose delivery would have succeeded — never receives the event, because
removing during iteration slides it into the position the cursor has
already passed.  The delivered list is empty even though listener 1
stays subscribed. -/
theorem send_progress_skips_after_failure_eval :
    send_progress (fun n => n ≠ 0) [0, 1] = some ([1], []) ∧
      (fun n : Nat => decide (n ≠ 0)) 1 = true := by
  constructor
  · decide
  · decide

/-- C1: whenever retrieval returns no results, or the top result scores
below the 0.5 relevance threshold, query_knowledge_base answers with
the canned not-found message of that branch, an empty sources list and
confidence 0, and never consults the generation model. -/
theorem qkb_confidence_gate (gen : String → Except String String)
    (question : String) (results : List RetrievalResult)
    (h : results = [] ∨
      ((results.head?).map RetrievalResult.score).getD 0 < relevanceThreshold) :
    (query_knowledge_base gen question results).sources = [] ∧
    (query_knowledge_base gen question results).confidence = 0 ∧
    (query_knowledge_base gen question results).invokedModel = false ∧
    ((query_knowledge_base gen question results).answer = noResultsMsg ∨
      (query_knowledge_base gen question results).answer = lowRelevanceMsg question) := by
  by_cases he : results.isEmpty
  · simp [query_knowledge_base, he]
  · rcases h with h | h
    · subst h
      simp at he
    · simp [query_knowledge_base, he, h]

/-- Witness for C1: one retrieval hit scoring 0.3 trips the gate. -/
theorem qkb_confidence_gate_witness :
    (query_knowledge_base (fun _ => Except.ok "fabricated answer") "any question"
        [{ score := ⟨3, 10, by decide, by decide⟩, uri := "u", text := "t" }]).sources = [] ∧
    (query_knowledge_base (fun _ => Except.ok "fabricated answer") "any question"
        [{ score := ⟨3, 10, by decide, by decide⟩, uri := "u", text := "t" }]).confidence = 0 ∧
    (query_knowledge_base (fun _ => Except.ok "fabricated answer") "any question"
        [{ score := ⟨3, 10, by decide, by decide⟩, uri := "u", text := "t" }]).invokedModel = false ∧
    ((query_knowledge_base (fun _ => Except.ok "fabricated answer") "any question"
        [{ score := ⟨3, 10, by decide, by decide⟩, uri := "u", text := "t" }]).answer = noResultsMsg ∨
      (query_knowledge_base (fun _ => Except.ok "fabricated answer") "any question"
        [{ score := ⟨3, 10, by decide, by decide⟩, uri := "u", text := "t" }]).answer =
        lowRelevanceMsg "any question") :=
  qkb_confidence_gate (fun _ => Except.ok "fabricated answer") "any question"
    [{ score := ⟨3, 10, by decide, by decide⟩, uri := "u", text := "t" }]
    (Or.inr (by decide))

/-- C2: the tiered generation call of query_bedrock never surfaces an
error: a primary (Titan) success with non-blank text is returned as-is;
if the primary raised, a secondary (Claude Instant, adapted request
body) success with non-blank text is returned; if both remote calls
raised — and likewise whenever the successful tier produced only blank
text — the deterministic heuristic responder simple_fallback answers
from the context instead, so the caller always receives an answer
string. -/
theorem query_bedrock_tiered (titan claude : Except String String)
    (question context : String) :
    (∀ a, titan = Except.ok a → pyStripS a ≠ "" →
      query_bedrock titan claude question context = pyStripS a) ∧
    (∀ e a, titan = Except.error e → claude = Except.ok a → pyStripS a ≠ "" →
      query_bedrock titan claude question context = pyStripS a) ∧
    (∀ e1 e2, titan = Except.error e1 → claude = Except.error e2 →
      query_bedrock titan claude question context = simple_fallback question context) ∧
    (query_bedrock titan claude question context = simple_fallback question context ∨
      ∃ a, (titan = Except.ok a ∨ claude = Except.ok a) ∧
        query_bedrock titan claude question context = pyStripS a) := by
  refine ⟨?_, ?_, ?_, ?_⟩
  · intro a ha hne
    subst ha
    simp [query_bedrock, hne]
  · intro e a he ha hne
    subst he; subst ha
    simp [query_bedrock, hne]
  · intro e1 e2 h1 h2
    subst h1; subst h2
    simp [query_bedrock]
  · cases titan with
    | ok a =>
      by_cases hne : pyStripS a = ""
      · left
        simp [query_bedrock, hne]
      · right
        exact ⟨a, Or.inl rfl, by simp [query_bedrock, hne]⟩
    | error e =>
      cases claude with
      | ok a =>
        by_cases hne : pyStripS a = ""
        · left
          simp [query_bedrock, hne]
        · right
          exact ⟨a, Or.inr rfl, by simp [query_bedrock, hne]⟩
      | error e2 =>
        left
        simp [query_bedrock]

/-- Witness for C2: both remote tiers raise; the caller still gets the
deterministic heuristic answer, here the word-count summary. -/
theorem query_bedrock_tiered_witness :
    query_bedrock (Except.error "Titan raised") (Except.error "Claude raised")
        "how many words is it" "alpha beta gamma" =
      simple_fallback "how many words is it" "alpha beta gamma" ∧
    simple_fallback "how many words is it" "alpha beta gamma" =
      "The document contains approximately 3 words." :=
  ⟨(query_bedrock_tiered (Except.error "Titan raised") (Except.error "Claude raised")
      "how many words is it" "alpha beta gamma").2.2.1
      "Titan raised" "Claude raised" rfl rfl,
    by decide⟩

/-- C6: create_embedding never raises and, provided a successful remote
call returns a 1024-dimensional embedding (the dimension the request
asks Titan for), always yields a vector of exactly 1024 rationals; on
any remote failure it yields the all-zeros vector of length 1024. -/
theorem create_embedding_dim (embed : String → Except String (List ℚ)) (text : String)
    (hdim : ∀ s v, embed s = Except.ok v → v = [] ∨ v.length = 1024) :
    (create_embedding embed text).length = 1024 ∧
    (∀ e, embed (if text.data.length > 8000 then strTake text 8000 else text) =
        Except.error e →
      create_embedding embed text = List.replicate 1024 0) := by
  constructor
  · unfold create_embedding
    cases hemb : embed (if text.data.length > 8000 then strTake text 8000 else text) with
    | ok v =>
      simp only [hemb]
      rcases hdim _ _ hemb with h | h
      · subst h
        rw [if_pos (by rfl)]
        exact List.length_replicate 1024 0
      · by_cases hv : v.isEmpty = true
        · rw [if_pos hv]
          exact List.length_replicate 1024 0
        · rw [if_neg hv]
          exact h
    | error e =>
      simp only [hemb]
      exact List.length_replicate 1024 0
  · intro e he
    unfold create_embedding
    simp only [he]

/-- Witness for C6: the remote embedding call raises; the zero vector of
length 1024 comes back. -/
theorem create_embedding_dim_witness :
    (create_embedding (fun _ => Except.error "model unavailable") "policy text").length = 1024 :=
  (create_embedding_dim (fun _ => Except.error "model unavailable") "policy text"
    (by intro s v h; simp at h)).1

/-- C3 counterexample: a job for two PDFs whose two tasks have both
completed successfully but whose final status write has not yet run is
a reachable state in which processed + failed equals total_pdfs while
the status is still the non-terminal processing — refuting the claim
that equality holds only once a terminal status is reached. -/
theorem job_equality_before_terminal_cex :
    JobReachable 2
      { total_pdfs := 2, processed := 2, failed := 0, status := JobStatus.processing } ∧
    2 + 0 = 2 ∧
    isTerminalStatus JobStatus.processing = false := by
  refine ⟨?_, by decide, by decide⟩
  have h1 : JobStep (initJob 2)
      { total_pdfs := 2, processed := 0, failed := 0, status := JobStatus.processing } :=
    JobStep.start (initJob 2) rfl
  have h2 : JobStep
      { total_pdfs := 2, processed := 0, failed := 0, status := JobStatus.processing }
      { total_pdfs := 2, processed := 1, failed := 0, status := JobStatus.processing } :=
    JobStep.taskSuccess _ (Or.inl rfl) (by decide)
  have h3 : JobStep
      { total_pdfs := 2, processed := 1, failed := 0, status := JobStatus.processing }
      { total_pdfs := 2, processed := 2, failed := 0, status := JobStatus.processing } :=
    JobStep.taskSuccess _ (Or.inl rfl) (by decide)
  exact Relation.ReflTransGen.tail (Relation.ReflTransGen.tail
    (Relation.ReflTransGen.single h1) h2) h3

/-- C3 (amended): in every reachable state of a job,
processed + failed ≤ total_pdfs, and whenever the background run has
written a final status (completed or completed_with_errors) the sum
equals total_pdfs.  Equality is not equivalent to terminality: it can
hold while the status is still processing, and a cancelled job is
terminal without equality. -/
theorem job_counters_invariant (n : Nat) (s : JobState) (h : JobReachable n s) :
    s.processed + s.failed ≤ s.total_pdfs ∧
    ((s.status = JobStatus.completed ∨ s.status = JobStatus.completed_with_errors) →
      s.processed + s.failed = s.total_pdfs) := by
  induction h with
  | refl => simp [initJob]
  | @tail b c hab hbc ih =>
    cases hbc with
    | start hq =>
      refine ⟨ih.1, ?_⟩
      rintro (hc | hc)
      · exact absurd (show JobStatus.processing = JobStatus.completed from hc) (by decide)
      · exact absurd
          (show JobStatus.processing = JobStatus.completed_with_errors from hc) (by decide)
    | taskSuccess hst hlt =>
      refine ⟨?_, ?_⟩
      · show b.processed + 1 + b.failed ≤ b.total_pdfs
        omega
      · intro hc
        have hc' : b.status = JobStatus.completed ∨
            b.status = JobStatus.completed_with_errors := hc
        rcases hst with h2 | h2 <;> rcases hc' with hc' | hc' <;> rw [h2] at hc' <;>
          exact absurd hc' (by decide)
    | taskFailure hst hlt =>
      refine ⟨?_, ?_⟩
      · show b.processed + (b.failed + 1) ≤ b.total_pdfs
        omega
      · intro hc
        have hc' : b.status = JobStatus.completed ∨
            b.status = JobStatus.completed_with_errors := hc
        rcases hst with h2 | h2 <;> rcases hc' with hc' | hc' <;> rw [h2] at hc' <;>
          exact absurd hc' (by decide)
    | finish hst heq =>
      refine ⟨?_, fun _ => ?_⟩
      · show b.processed + b.failed ≤ b.total_pdfs
        omega
      · show b.processed + b.failed = b.total_pdfs
        exact heq
    | cancel h1 h2 =>
      refine ⟨ih.1, ?_⟩
      rintro (hc | hc)
      · exact absurd (show JobStatus.cancelled = JobStatus.completed from hc) (by decide)
      · exact absurd
          (show JobStatus.cancelled = JobStatus.completed_with_errors from hc) (by decide)

/-- Witness for the amended C3 theorem at the freshly created job. -/
theorem job_counters_invariant_witness :
    (initJob 1).processed + (initJob 1).failed ≤ (initJob 1).total_pdfs ∧
    (((initJob 1).status = JobStatus.completed ∨
        (initJob 1).status = JobStatus.completed_with_errors) →
      (initJob 1).processed + (initJob 1).failed = (initJob 1).total_pdfs) :=
  job_counters_invariant 1 (initJob 1) Relation.ReflTransGen.refl

/-- Every iteration of chunk_text pushes the end position to at least
start + chunk_size - 198: the sentence-boundary cut is only taken when
the terminator sits above start + chunk_size - 200. -/
theorem chunkEnd_ge (t : List Char) (chunk_size start : Nat) :
    (start : Int) + (chunk_size : Int) - 198 ≤ chunkEnd t chunk_size start := by
  unfold chunkEnd
  dsimp only
  split_ifs with h1 h2
  · omega
  · omega
  · omega

/-- With overlap + 200 ≤ chunk_size the loop advances start by at least
two characters per iteration, so fuel one greater than the remaining
length suffices. -/
theorem chunkLoop_isSome (t : List Char) (chunk_size overlap : Nat)
    (h : overlap + 200 ≤ chunk_size) :
    ∀ (m start : Nat) (acc : List (List Char)), t.length ≤ start + m →
      (chunkLoop t chunk_size overlap (m + 1) start acc).isSome = true := by
  intro m
  induction m with
  | zero =>
    intro start acc hb
    rw [chunkLoop]
    rw [if_neg (by omega)]
    rfl
  | succ m ih =>
    intro start acc hb
    rw [chunkLoop]
    dsimp only
    split_ifs with h1 h2 h3 h4
    all_goals
      first
        | rfl
        | (have hge := chunkEnd_ge t chunk_size start
           refine ih _ _ ?_
           omega)

/-- C10: chunk_text terminates for every input text whenever
overlap + 200 ≤ chunk_size (each iteration advances the start position
by at least chunk_size - overlap - 198 ≥ 2 characters), in particular
under the default parameters chunk_size = 1000, overlap = 200. -/
theorem chunk_text_terminates (t : List Char) (chunk_size overlap : Nat)
    (h : overlap + 200 ≤ chunk_size) :
    (chunk_text t chunk_size overlap).isSome = true := by
  unfold chunk_text
  split_ifs with hlen
  · rfl
  · exact chunkLoop_isSome t chunk_size overlap h t.length 0 [] (by omega)

/-- Witness for C10: a 1300-character text under the default parameters. -/
theorem chunk_text_terminates_witness :
    (chunk_text (List.replicate 1300 'a') 1000 200).isSome = true :=
  chunk_text_terminates (List.replicate 1300 'a') 1000 200 (by decide)

/-- wordChunksK produces exactly k chunks. -/
theorem wordChunksK_length (ws : List α) (size step : Nat) :
    ∀ (k start : Nat), (wordChunksK ws size step k start).length = k := by
  intro k
  induction k with
  | zero => intro start; rfl
  | succ k ih =>
    intro start
    simp only [wordChunksK, List.length_cons, ih]

/-- The i-th chunk of wordChunksK is the slice starting at
start + step * i. -/
theorem wordChunksK_getD (ws : List α) (size step : Nat) :
    ∀ (k start i : Nat), i < k →
      (wordChunksK ws size step k start).getD i [] =
        (ws.drop (start + step * i)).take size := by
  intro k
  induction k with
  | zero => intro start i h; omega
  | succ k ih =>
    intro start i h
    cases i with
    | zero => simp [wordChunksK]
    | succ i =>
      have hrw : start + step * (i + 1) = (start + step) + step * i := by ring
      simp only [wordChunksK, List.getD_cons_succ, hrw]
      exact ih (start + step) i (by omega)

/-- Every chunk of wordChunksK holds at most size tokens. -/
theorem wordChunksK_chunk_le (ws : List α) (size step : Nat) :
    ∀ (k start : Nat), ∀ c ∈ wordChunksK ws size step k start, c.length ≤ size := by
  intro k
  induction k with
  | zero => intro start c hc; simp [wordChunksK] at hc
  | succ k ih =>
    intro start c hc
    simp only [wordChunksK, List.mem_cons] at hc
    rcases hc with hc | hc
    · subst hc
      simp only [List.length_take]
      omega
    · exact ih (start + step) c hc

/-- Dropping the first ov tokens of every chunk and concatenating yields
the word suffix from start + ov, provided the k chunks reach the end of
the word list. -/
theorem wordChunksK_drop_join (ws : List α) (size step ov : Nat)
    (hstep : step + ov = size) :
    ∀ (k start : Nat), ws.length ≤ start + step * k →
      (((wordChunksK ws size step k start).map (fun c => c.drop ov)).join) =
        ws.drop (start + ov) := by
  intro k
  induction k with
  | zero =>
    intro start hb
    simp only [wordChunksK, List.map_nil, List.join_nil]
    exact (List.drop_eq_nil_of_le (by omega)).symm
  | succ k ih =>
    intro start hb
    have hb' : ws.length ≤ (start + step) + step * k := by
      have : start + step * (k + 1) = (start + step) + step * k := by ring
      omega
    simp only [wordChunksK, List.map_cons, List.join_cons, ih (start + step) hb']
    rw [List.drop_take, List.drop_drop]
    have h1 : size - ov = step := by omega
    have h3 : (start + step) + ov = (start + ov) + step := by ring
    have h4 : List.drop ((start + ov) + step) ws =
        List.drop step (List.drop (start + ov) ws) :=
      (List.drop_drop step (start + ov) ws).symm
    rw [h1, h3, h4, List.take_append_drop]

/-- Any two consecutive chunks of wordChunksK share exactly ov tokens
when the earlier chunk is full (holds exactly size tokens). -/
theorem wordChunksK_consecutive (ws : List α) (size step ov : Nat)
    (hstep : step + ov = size) (hov : ov < size) :
    ∀ (k i : Nat), i + 1 < k →
      ((wordChunksK ws size step k 0).getD i []).length = size →
      sharesExactly ((wordChunksK ws size step k 0).getD i [])
        ((wordChunksK ws size step k 0).getD (i + 1) []) ov := by
  intro k i hik hleni
  have hgi := wordChunksK_getD ws size step k 0 i (by omega)
  have hgi1 := wordChunksK_getD ws size step k 0 (i + 1) (by omega)
  rw [hgi] at hleni
  rw [hgi, hgi1]
  simp only [Nat.zero_add] at hleni ⊢
  have hmul : step * (i + 1) = step * i + step := Nat.mul_succ step i
  rw [List.length_take, List.length_drop] at hleni
  have hn : step * i + size ≤ ws.length := by omega
  refine ⟨?_, ?_, ?_⟩
  · rw [List.length_take, List.length_drop]
    omega
  · rw [List.length_take, List.length_drop, hmul]
    omega
  · rw [List.length_take, List.length_drop, hleni]
    rw [show size - ov = step from by omega]
    rw [List.drop_take]
    rw [List.drop_drop]
    rw [List.take_take]
    rw [show min ov size = ov from by omega]
    rw [hmul]
    rw [show size - step = ov from by omega]

/-- Every token produced by pySplitAux (given an in-progress token of
non-whitespace characters) is non-empty and whitespace-free. -/
theorem pySplitAux_tokens :
    ∀ (l cur : List Char), (∀ c ∈ cur, isPyWs c = false) →
      ∀ tok ∈ pySplitAux l cur, tok ≠ [] ∧ ∀ c ∈ tok, isPyWs c = false := by
  intro l
  induction l with
  | nil =>
    intro cur hcur tok htok
    simp only [pySplitAux] at htok
    split_ifs at htok with h
    · simp at htok
    · simp only [List.mem_singleton] at htok
      subst htok
      refine ⟨?_, ?_⟩
      · simp only [ne_eq, List.reverse_eq_nil_iff]
        intro hc
        rw [hc] at h
        simp at h
      · intro c hc
        exact hcur c (List.mem_reverse.mp hc)
  | cons a as ih =>
    intro cur hcur tok htok
    simp only [pySplitAux] at htok
    split_ifs at htok with h1 h2
    · exact ih [] (by simp) tok htok
    · rcases List.mem_cons.mp htok with h | h
      · subst h
        refine ⟨?_, ?_⟩
        · simp only [ne_eq, List.reverse_eq_nil_iff]
          intro hc
          rw [hc] at h2
          simp at h2
        · intro c hc
          exact hcur c (List.mem_reverse.mp hc)
      · exact ih [] (by simp) tok h
    · refine ih (a :: cur) ?_ tok htok
      intro c hc
      rcases List.mem_cons.mp hc with h | h
      · subst h
        simpa using h1
      · exact hcur c h

/-- Stripping a string whose first character is not whitespace cannot
give the empty string. -/
theorem pyStrip_ne_nil (c : Char) (r : List Char) (h : isPyWs c = false) :
    pyStrip (c :: r) ≠ [] := by
  unfold pyStrip
  rw [List.dropWhile_cons, if_neg (by simp [h])]
  intro hcontra
  rw [List.reverse_eq_nil_iff, List.dropWhile_eq_nil_iff] at hcontra
  have hc : c ∈ (c :: r).reverse := by simp
  have hfalse := hcontra c hc
  rw [h] at hfalse
  exact Bool.noConfusion hfalse

/-- Joining a chunk whose first token starts with c yields a string
starting with c. -/
theorem joinSp_cons_head (c : Char) (t : List Char) (rest : List (List Char)) :
    ∃ r, joinSp ((c :: t) :: rest) = c :: r := by
  cases rest with
  | nil => exact ⟨t, rfl⟩
  | cons x xs => exact ⟨t ++ ' ' :: joinSp (x :: xs), rfl⟩

/-- Every chunk of wordChunksK is a slice starting strictly inside the
word list, provided the last chunk start is. -/
theorem wordChunksK_mem_slice (ws : List α) (size step : Nat) :
    ∀ (k start : Nat), start + step * (k - 1) < ws.length ∨ k = 0 →
      ∀ c ∈ wordChunksK ws size step k start,
        ∃ s, s < ws.length ∧ c = (ws.drop s).take size := by
  intro k
  induction k with
  | zero =>
    intro start h c hc
    simp [wordChunksK] at hc
  | succ k ih =>
    intro start h c hc
    rcases h with h | h
    · simp only [Nat.succ_sub_one] at h
      simp only [wordChunksK, List.mem_cons] at hc
      rcases hc with hc | hc
      · subst hc
        exact ⟨start, by omega, rfl⟩
      · cases k with
        | zero => simp [wordChunksK] at hc
        | succ m =>
          refine ih (start + step) ?_ c hc
          left
          simp only [Nat.succ_sub_one]
          have hmul : step * (m + 1) = step * m + step := Nat.mul_succ step m
          omega
    · exact absurd h (Nat.succ_ne_zero k)

/-- Python range(0, n, step) takes ceil(n / step) steps to cover n. -/
theorem ceil_mul_ge (n step : Nat) (h : 0 < step) :
    n ≤ step * ((n + step - 1) / step) := by
  have hdm := Nat.div_add_mod (n + step - 1) step
  have hr : (n + step - 1) % step < step := Nat.mod_lt _ h
  generalize step * ((n + step - 1) / step) = A at hdm ⊢
  generalize (n + step - 1) % step = r at hdm hr
  omega

/-- The ceiling count is positive for positive n. -/
theorem ceil_pos (n step : Nat) (h : 0 < step) (hn : 0 < n) :
    0 < (n + step - 1) / step :=
  Nat.div_pos (by omega) h

/-- The start of the final range element lies strictly inside n. -/
theorem ceil_last_lt (n step : Nat) (h : 0 < step) (hn : 0 < n) :
    step * ((n + step - 1) / step - 1) < n := by
  obtain ⟨m, hm⟩ : ∃ m, (n + step - 1) / step = m + 1 :=
    ⟨(n + step - 1) / step - 1, by have := ceil_pos n step h hn; omega⟩
  rw [hm]
  simp only [Nat.add_sub_cancel]
  have hdm := Nat.div_add_mod (n + step - 1) step
  rw [hm] at hdm
  have hr : (n + step - 1) % step < step := Nat.mod_lt _ h
  have hmul : step * (m + 1) = step * m + step := Nat.mul_succ step m
  generalize hA : step * m = A at hmul ⊢
  generalize step * (m + 1) = B at hmul hdm
  generalize (n + step - 1) % step = r at hdm hr
  omega

/-- C5 (amended): for texts of more than size whitespace tokens and any
overlap < size, create_text_chunks equals its token-level view joined
with spaces (no chunk is filtered out); every chunk holds at most size
tokens; consecutive chunks share exactly overlap tokens whenever the
earlier chunk is full (the trailing chunks, whose slices are cut short
by the end of the text, share fewer); and dropping the first overlap
tokens of every chunk after the first and concatenating reconstructs
the token sequence. -/
theorem create_text_chunks_spec (text : List Char) (size ov : Nat)
    (hov : ov < size) (hlen : size < (pythonSplitWs text).length) :
    create_text_chunks text size ov =
      (create_text_chunks_words (pythonSplitWs text) size ov).map joinSp ∧
    (∀ c ∈ create_text_chunks_words (pythonSplitWs text) size ov, c.length ≤ size) ∧
    (∀ i, i + 1 < (create_text_chunks_words (pythonSplitWs text) size ov).length →
      ((create_text_chunks_words (pythonSplitWs text) size ov).getD i []).length = size →
      sharesExactly ((create_text_chunks_words (pythonSplitWs text) size ov).getD i [])
        ((create_text_chunks_words (pythonSplitWs text) size ov).getD (i + 1) []) ov) ∧
    (create_text_chunks_words (pythonSplitWs text) size ov).headD [] ++
      ((create_text_chunks_words (pythonSplitWs text) size ov).tail.map
        (fun c => c.drop ov)).join = pythonSplitWs text := by
  have hstep0 : ¬ (size - ov = 0) := by omega
  have hstep : (size - ov) + ov = size := by omega
  have hcw : create_text_chunks_words (pythonSplitWs text) size ov =
      wordChunksK (pythonSplitWs text) size (size - ov)
        (((pythonSplitWs text).length + (size - ov) - 1) / (size - ov)) 0 := by
    rw [create_text_chunks_words, if_neg hstep0]
  have hn0 : 0 < (pythonSplitWs text).length := by omega
  refine ⟨?_, ?_, ?_, ?_⟩
  · unfold create_text_chunks
    apply (List.filter_eq_self).mpr
    intro x hx
    rcases List.mem_map.mp hx with ⟨c, hc, rfl⟩
    rw [hcw] at hc
    obtain ⟨s, hs, hceq⟩ :=
      wordChunksK_mem_slice (pythonSplitWs text) size (size - ov) _ 0
        (Or.inl (by
          simp only [Nat.zero_add]
          exact ceil_last_lt (pythonSplitWs text).length (size - ov) (by omega) hn0))
        c hc
    subst hceq
    have hpos : 0 < (((pythonSplitWs text).drop s).take size).length := by
      rw [List.length_take, List.length_drop]
      omega
    cases hc2 : ((pythonSplitWs text).drop s).take size with
    | nil =>
      rw [hc2] at hpos
      simp at hpos
    | cons tok rest =>
      have htokmem : tok ∈ ((pythonSplitWs text).drop s).take size := by
        rw [hc2]
        exact List.mem_cons_self tok rest
      have htokws : tok ∈ pythonSplitWs text :=
        List.drop_subset s (pythonSplitWs text) (List.take_subset size _ htokmem)
      obtain ⟨htokne, htokchars⟩ :=
        pySplitAux_tokens text [] (by simp) tok htokws
      cases tok with
      | nil => exact absurd rfl htokne
      | cons ch t =>
        have hch : isPyWs ch = false := htokchars ch (List.mem_cons_self ch t)
        obtain ⟨r, hjoin⟩ := joinSp_cons_head ch t rest
        rw [hjoin]
        have hne := pyStrip_ne_nil ch r hch
        cases hps : pyStrip (ch :: r) with
        | nil => exact absurd hps hne
        | cons y ys => simp [hps]
  · intro c hc
    rw [hcw] at hc
    exact wordChunksK_chunk_le (pythonSplitWs text) size (size - ov) _ 0 c hc
  · intro i hi hleni
    rw [hcw] at hi hleni ⊢
    rw [wordChunksK_length] at hi
    exact wordChunksK_consecutive (pythonSplitWs text) size (size - ov) ov hstep hov
      _ i hi hleni
  · rw [hcw]
    obtain ⟨m, hm⟩ : ∃ m,
        (((pythonSplitWs text).length + (size - ov) - 1) / (size - ov)) = m + 1 :=
      ⟨(((pythonSplitWs text).length + (size - ov) - 1) / (size - ov)) - 1,
        by have := ceil_pos (pythonSplitWs text).length (size - ov) (by omega) hn0; omega⟩
    have hbound : (pythonSplitWs text).length ≤ (size - ov) * (m + 1) := by
      rw [← hm]
      exact ceil_mul_ge (pythonSplitWs text).length (size - ov) (by omega)
    rw [hm]
    simp only [wordChunksK, List.headD_cons, List.tail_cons, Nat.zero_add, List.drop_zero]
    rw [wordChunksK_drop_join (pythonSplitWs text) size (size - ov) ov hstep m (size - ov)
      (by
        have hmul : (size - ov) * (m + 1) = (size - ov) * m + (size - ov) :=
          Nat.mul_succ (size - ov) m
        generalize hA : (size - ov) * m = A at hmul ⊢
        generalize (size - ov) * (m + 1) = B at hmul hbound
        omega)]
    rw [hstep]
    exact List.take_append_drop size (pythonSplitWs text)

/-- C5 counterexample: twelve tokens, size 10, overlap 5.  The chunks
are tokens 0-9, 5-11 and 10-11; the last pair of consecutive chunks
shares only the two tokens 10-11, not the claimed five, because the
final slice is cut short by the end of the text. -/
theorem create_text_chunks_overlap_cex :
    ¬ (∀ i < (create_text_chunks "a b c d e f g h i j k l".data 10 5).length - 1,
        sharesExactly
          (pythonSplitWs ((create_text_chunks "a b c d e f g h i j k l".data 10 5).getD i []))
          (pythonSplitWs
            ((create_text_chunks "a b c d e f g h i j k l".data 10 5).getD (i + 1) []))
          5) := by
  decide

/-- Witness for the amended C5 theorem on a five-token text with size 3
and overlap 1. -/
theorem create_text_chunks_spec_witness :
    create_text_chunks "a b c d e".data 3 1 =
      (create_text_chunks_words (pythonSplitWs "a b c d e".data) 3 1).map joinSp ∧
    (create_text_chunks_words (pythonSplitWs "a b c d e".data) 3 1).headD [] ++
      ((create_text_chunks_words (pythonSplitWs "a b c d e".data) 3 1).tail.map
        (fun c => c.drop 1)).join = pythonSplitWs "a b c d e".data :=
  ⟨(create_text_chunks_spec "a b c d e".data 3 1 (by decide) (by decide)).1,
    (create_text_chunks_spec "a b c d e".data 3 1 (by decide) (by decide)).2.2.2⟩
